import Mathlib

/-!
Shallow embedding of `src/generate.py` (gradescope-self-grades-importer).

The program reads a scores CSV (columns "SID", "Submission ID") and a
metadata CSV (column "Student ID" plus response columns named
"Question <N>[.<M>] Response"), builds per-question grade mappings from
submission id to a vector of subpart grades in [0,4], and emits one file
per question that has at least one nonzero grade.

Modelling conventions:
 - Python `dict` is an association list with insertion order: updating an
   existing key keeps its position, a new key is appended (`dinsert`).
 - `csv.DictReader` rows are dictionaries from the fieldnames to the row's
   cells; a short row yields `none` cells (Python `None`), and looking up
   a key that is not a fieldname is a `KeyError`.
 - Python `int(s)` on a stripped string is `pyInt`: an optional sign
   followed by ASCII digits, with single underscores allowed between
   digits (Python 3 digit grouping).  `str.strip` is `pyStrip`
   (ASCII whitespace; the unicode-whitespace difference is irrelevant to
   the inputs considered here).
 - Uncaught Python exceptions (`KeyError`, `AttributeError` from calling
   `.strip()` on `None`) are the `Except.error` branch of `PyErr`; an
   uncaught exception terminates the process with exit status 1 and no
   usage message.
-/

namespace GradesImporter

/-- Python-dict lookup on an association list: first entry with the key. -/
def dlookup {α β : Type} [DecidableEq α] : List (α × β) → α → Option β
  | [], _ => none
  | p :: rest, k => if p.1 = k then some p.2 else dlookup rest k

/-- Python-dict assignment `d[k] = v`: update in place if the key exists
(keeping its position), otherwise append the new entry at the end. -/
def dinsert {α β : Type} [DecidableEq α] : List (α × β) → α → β → List (α × β)
  | [], k, v => [(k, v)]
  | p :: rest, k, v => if p.1 = k then (k, v) :: rest else p :: dinsert rest k v

/-! ### Python `str.strip()` and `int()` -/

/-- Drop leading whitespace characters. -/
def dropWs : List Char → List Char
  | [] => []
  | c :: cs => if c.isWhitespace then dropWs cs else c :: cs

/-- Python `s.strip()`: remove whitespace from both ends. -/
def pyStrip (s : String) : String :=
  ⟨(dropWs (dropWs s.data).reverse).reverse⟩

/-- Numeric value of an ASCII digit character. -/
def pyDigitVal (c : Char) : Nat := c.toNat - '0'.toNat

/-- Digits of a Python integer literal after the first digit: ASCII digits
with single underscores allowed between digits (`int("1_0") = 10`). -/
def pyDigitsAux : Nat → List Char → Option Nat
  | acc, [] => some acc
  | acc, '_' :: c :: cs =>
    if c.isDigit then pyDigitsAux (10 * acc + pyDigitVal c) cs else none
  | acc, c :: cs =>
    if c.isDigit then pyDigitsAux (10 * acc + pyDigitVal c) cs else none

/-- A nonempty run of digits (with underscore grouping), or `none`. -/
def pyDigits : List Char → Option Nat
  | [] => none
  | c :: cs => if c.isDigit then pyDigitsAux (pyDigitVal c) cs else none

/-- Python `int(s)` for a string already stripped of surrounding
whitespace: optional sign, then digits.  `none` models `ValueError`. -/
def pyInt (s : String) : Option Int :=
  match s.data with
  | '+' :: cs => (pyDigits cs).map (fun n => (n : Int))
  | '-' :: cs => (pyDigits cs).map (fun n => -(n : Int))
  | cs => (pyDigits cs).map (fun n => (n : Int))

/-! ### `parse_questions` -/

/-- Strip a literal leading character sequence, or fail. -/
def chopLead : List Char → List Char → Option (List Char)
  | [], cs => some cs
  | _ :: _, [] => none
  | p :: ps, c :: cs => if c = p then chopLead ps cs else none

/-- Longest digit run at the front of a character list, and the rest. -/
def takeDigits : List Char → List Char × List Char
  | [] => ([], [])
  | c :: cs =>
    if c.isDigit then
      let r := takeDigits cs
      (c :: r.1, r.2)
    else ([], c :: cs)

/-- Decimal value of a digit list (used on `m.group(1)`, always digits). -/
def digitsToNat (l : List Char) : Nat := l.foldl (fun a c => 10 * a + pyDigitVal c) 0

/-- The regex `^Question (\d+)(?:\.(\d+))? Response$` of `parse_questions`:
`some n` when the header matches with leading integer `n`.  The regex is
deterministic here: after the digit run the next character decides whether
the optional `.<digits>` group must be taken (`.`) or not (` `).  (Python's
`$` would also match just before a trailing newline, but header strings
from `csv` carry no newline.) -/
def matchQuestionHeader (h : String) : Option Nat :=
  match chopLead "Question ".data h.data with
  | none => none
  | some rest =>
    let d1 := takeDigits rest
    if d1.1 = [] then none
    else
      match d1.2 with
      | '.' :: r2 =>
        let d2 := takeDigits r2
        if d2.1 = [] then none
        else if d2.2 = " Response".data then some (digitsToNat d1.1) else none
      | r1 => if r1 = " Response".data then some (digitsToNat d1.1) else none

/-- `questions[main_q].append(h)` on a `defaultdict(list)`: append to the
group in place, creating the group at the end on first use. -/
def qappend : List (Nat × List String) → Nat → String → List (Nat × List String)
  | [], k, h => [(k, [h])]
  | p :: rest, k, h =>
    if p.1 = k then (p.1, p.2 ++ [h]) :: rest else p :: qappend rest k h

/-- `parse_questions(headers)`: group the headers matching the question
pattern by their leading integer, in encounter order. -/
def parse_questions (headers : List String) : List (Nat × List String) :=
  headers.foldl
    (fun qs h =>
      match matchQuestionHeader h with
      | some n => qappend qs n h
      | none => qs)
    []

/-! ### `compute_grades` -/

/-- `(row[col] or "").strip()`: a missing (`None`) cell behaves as the
empty string, and the value is stripped of surrounding whitespace. -/
def cellVal (cell : Option String) : String :=
  pyStrip
    (match cell with
     | none => ""
     | some s => s)

/-- The loop body of `compute_grades` on one stripped cell value:
`(grade appended to the result, whether has_any is set)`. -/
def cellCore (val : String) : Nat × Bool :=
  if val = "" then (0, false)
  else
    match pyInt val with
    | some v => if 0 ≤ v ∧ v ≤ 4 then (v.toNat, true) else (0, false)
    | none => (0, false)

/-- One cell of a row: `cellCore` after the `or ""` / `strip` step. -/
def cellGrade (cell : Option String) : Nat × Bool := cellCore (cellVal cell)

/-- `compute_grades(row, response_columns)`: per-column grades with
invalid cells coerced to 0; `none` (Python `None`) unless some column
parsed to an integer in [0,4] (`has_any`). -/
def compute_grades (row : String → Option String) (cols : List String) : Option (List Nat) :=
  if cols.any (fun c => (cellGrade (row c)).2) then
    some (cols.map (fun c => (cellGrade (row c)).1))
  else none

/-! ### `main`: CSV rows as dictionaries, Python exceptions as `Except` -/

/-- An input CSV as `csv.DictReader` sees it: the header row
(`reader.fieldnames`) and the raw cell lists of the remaining rows. -/
structure CSV where
  fieldnames : List String
  rows : List (List String)
deriving DecidableEq

/-- The uncaught Python exceptions the extractor can raise: `KeyError`
on a row lookup whose key is not a fieldname, and `AttributeError` from
`row["Student ID"].strip()` when the cell is `None`. -/
inductive PyErr where
  | keyError (k : String)
  | attrError
deriving DecidableEq

/-- Zip a row's cells with the fieldnames, padding a short row with
`none` (`csv.DictReader`'s `restval=None`); extra cells are dropped (they
go under the non-string `restkey`). -/
def padZip : List String → List String → List (String × Option String)
  | [], _ => []
  | f :: fs, [] => (f, none) :: padZip fs []
  | f :: fs, c :: cs => (f, some c) :: padZip fs cs

/-- The dictionary `csv.DictReader` builds for one row. -/
def rowToDict (fns : List String) (cells : List String) : List (String × Option String) :=
  (padZip fns cells).foldl (fun d p => dinsert d p.1 p.2) []

/-- `row[col]` for the response columns inside `compute_grades`: in `main`
every response column is a fieldname, so the `KeyError` default branch is
never taken there. -/
def rowCell (fns : List String) (cells : List String) : String → Option String :=
  fun c => (dlookup (rowToDict fns cells) c).getD none

/-- One scores-CSV row: `.ok (some (sid, sub))` when the row contributes
`sid_to_submission[sid] = sub`, `.ok none` when skipped (blank SID or
Submission ID), `.error` for a missing column (`KeyError`). -/
def scoreEffect (fns : List String) (cells : List String) :
    Except PyErr (Option (String × String)) :=
  match dlookup (rowToDict fns cells) "SID" with
  | none => .error (.keyError "SID")
  | some sidCell =>
    match dlookup (rowToDict fns cells) "Submission ID" with
    | none => .error (.keyError "Submission ID")
    | some subCell =>
      let sid := pyStrip (sidCell.getD "")
      let sub := pyStrip (subCell.getD "")
      if sid ≠ "" ∧ sub ≠ "" then .ok (some (sid, sub)) else .ok none

/-- One step of the `sid_to_submission` loop. -/
def scoreStep (s2s : List (String × String)) (fns : List String) (cells : List String) :
    Except PyErr (List (String × String)) :=
  match scoreEffect fns cells with
  | .error e => .error e
  | .ok none => .ok s2s
  | .ok (some (sid, sub)) => .ok (dinsert s2s sid sub)

/-- The `sid_to_submission` loop over the scores rows. -/
def buildS2SAux (fns : List String) :
    List (List String) → List (String × String) → Except PyErr (List (String × String))
  | [], s2s => .ok s2s
  | cells :: rest, s2s =>
    match scoreStep s2s fns cells with
    | .error e => .error e
    | .ok s2s' => buildS2SAux fns rest s2s'

/-- `sid_to_submission` built from the scores CSV. -/
def buildSidToSubmission (scores : CSV) : Except PyErr (List (String × String)) :=
  buildS2SAux scores.fieldnames scores.rows []

/-- What one metadata row does to a question's grade dict:
`.ok (some (sub, g))` when it assigns `grades[sub] = g`, `.ok none` when
skipped (unknown student id or `compute_grades` returned `None`),
`.error` when `row["Student ID"]` raises (`KeyError` for a missing
column, `AttributeError` for `None.strip()`). -/
def rowEffect (s2s : List (String × String)) (fns cols cells : List String) :
    Except PyErr (Option (String × List Nat)) :=
  match dlookup (rowToDict fns cells) "Student ID" with
  | none => .error (.keyError "Student ID")
  | some none => .error .attrError
  | some (some sidStr) =>
    match dlookup s2s (pyStrip sidStr) with
    | none => .ok none
    | some sub =>
      match compute_grades (rowCell fns cells) cols with
      | none => .ok none
      | some g => .ok (some (sub, g))

/-- One step of the metadata-row loop for one question. -/
def rowStep (s2s : List (String × String)) (fns cols : List String)
    (grades : List (String × List Nat)) (cells : List String) :
    Except PyErr (List (String × List Nat)) :=
  match rowEffect s2s fns cols cells with
  | .error e => .error e
  | .ok none => .ok grades
  | .ok (some (sub, g)) => .ok (dinsert grades sub g)

/-- The metadata-row loop for one question. -/
def processRows (s2s : List (String × String)) (fns cols : List String) :
    List (List String) → List (String × List Nat) → Except PyErr (List (String × List Nat))
  | [], grades => .ok grades
  | cells :: rest, grades =>
    match rowStep s2s fns cols grades cells with
    | .error e => .error e
    | .ok grades' => processRows s2s fns cols rest grades'

/-- `{sub_id: [0] * num_parts for sub_id in sid_to_submission.values()}`. -/
def initGrades (s2s : List (String × String)) (cols : List String) :
    List (String × List Nat) :=
  (s2s.map Prod.snd).foldl (fun g sub => dinsert g sub (List.replicate cols.length 0)) []

/-- One question's final grade dict after all metadata rows. -/
def questionGrades (s2s : List (String × String)) (fns : List String)
    (rows : List (List String)) (cols : List String) :
    Except PyErr (List (String × List Nat)) :=
  processRows s2s fns cols rows (initGrades s2s cols)

/-- `any(any(g > 0 for g in arr) for arr in grades.values())`. -/
def hasNonzero (grades : List (String × List Nat)) : Bool :=
  grades.any (fun p => p.2.any (fun g => decide (0 < g)))

/-- Insert into an ascending list of question numbers. -/
def insertSorted (n : Nat) : List Nat → List Nat
  | [] => [n]
  | m :: rest => if n ≤ m then n :: m :: rest else m :: insertSorted n rest

/-- `sorted(questions)`: the question numbers in ascending order. -/
def sortKeys : List Nat → List Nat
  | [] => []
  | n :: rest => insertSorted n (sortKeys rest)

/-- The per-question loop of `main`: for each question number in order,
compute its grade dict and emit `(q, grades)` exactly when some grade is
nonzero (otherwise the question is skipped and no file is written). -/
def emitAll (s2s : List (String × String)) (fns : List String)
    (rows : List (List String)) (questions : List (Nat × List String)) :
    List Nat → Except PyErr (List (Nat × List (String × List Nat)))
  | [] => .ok []
  | q :: qs =>
    match dlookup questions q with
    | none => emitAll s2s fns rows questions qs
    | some cols =>
      match questionGrades s2s fns rows cols with
      | .error e => .error e
      | .ok g =>
        match emitAll s2s fns rows questions qs with
        | .error e => .error e
        | .ok rest => .ok ((if hasNonzero g then [(q, g)] else []) ++ rest)

/-- The files `main` writes (question number and grade dict each), given
the two parsed CSV inputs; `.error` models an uncaught exception. -/
def mainOutputs (scores metadata : CSV) :
    Except PyErr (List (Nat × List (String × List Nat))) :=
  match buildSidToSubmission scores with
  | .error e => .error e
  | .ok s2s =>
    let questions := parse_questions metadata.fieldnames
    emitAll s2s metadata.fieldnames metadata.rows questions
      (sortKeys (questions.map Prod.fst))

/-- Observable termination of the process: exit status, and whether the
usage message was printed. -/
structure ProgResult where
  exitCode : Nat
  usagePrinted : Bool
deriving DecidableEq

/-- The whole program: `sys.exit(1)` plus a usage line unless exactly two
file arguments follow the script name; then the extractor runs, an
uncaught exception exiting with status 1 (and no usage message), a normal
run with status 0. -/
def runProg (argv : List String) (scores metadata : CSV) : ProgResult :=
  if argv.length ≠ 3 then ⟨1, true⟩
  else
    match mainOutputs scores metadata with
    | .ok _ => ⟨0, false⟩
    | .error _ => ⟨1, false⟩

/-! ### Spec-side predicates (phrased from the spec, to compare with the code) -/

/-- A cell "yields a value": its stripped text parses as an integer in
[0,4].  This is exactly what sets `has_any` in `compute_grades`. -/
def cellYields (cell : Option String) : Prop :=
  ∃ v : Int, pyInt (cellVal cell) = some v ∧ 0 ≤ v ∧ v ≤ 4

/-- A cell the spec calls "blank or invalid": empty after stripping,
unparseable, or parsing outside [0,4]. -/
def blankOrInvalid (cell : Option String) : Prop :=
  cellVal cell = "" ∨ pyInt (cellVal cell) = none ∨
    ∃ v : Int, pyInt (cellVal cell) = some v ∧ ¬(0 ≤ v ∧ v ≤ 4)

/-- The spec's per-cell grade, from its words: "For all valid cell values
v where 0≤v≤4, parsing yields v; any other string or blank yields 0." -/
def specCellGrade (cell : Option String) : Nat :=
  match cell with
  | none => 0
  | some s =>
    match pyInt (pyStrip s) with
    | some v => if 0 ≤ v ∧ v ≤ 4 then v.toNat else 0
    | none => 0

/-! ## Theorems -/

/-! ### The Python-dict model -/

theorem dlookup_dinsert_self {α β : Type} [DecidableEq α] (d : List (α × β)) (k : α) (v : β) :
    dlookup (dinsert d k v) k = some v := by
  induction d with
  | nil => simp [dinsert, dlookup]
  | cons p rest ih =>
    by_cases h : p.1 = k
    · simp [dinsert, h, dlookup]
    · simp [dinsert, h, dlookup, ih]

theorem dlookup_dinsert_ne {α β : Type} [DecidableEq α] (d : List (α × β)) (k k' : α) (v : β)
    (h : k' ≠ k) : dlookup (dinsert d k v) k' = dlookup d k' := by
  have hk : ¬(k = k') := fun hh => h hh.symm
  induction d with
  | nil => simp [dinsert, dlookup, hk]
  | cons p rest ih =>
    by_cases hp : p.1 = k
    · have hpk : ¬(p.1 = k') := by rw [hp]; exact hk
      simp [dinsert, hp, dlookup, hk, hpk]
    · by_cases hp' : p.1 = k'
      · simp only [dinsert, if_neg hp, dlookup, if_pos hp']
      · simp only [dinsert, if_neg hp, dlookup, if_neg hp', ih]

theorem mem_dinsert {α β : Type} [DecidableEq α] (d : List (α × β)) (k : α) (v : β)
    (p : α × β) (hp : p ∈ dinsert d k v) : p ∈ d ∨ p = (k, v) := by
  induction d with
  | nil => simp [dinsert] at hp; simp [hp]
  | cons q rest ih =>
    by_cases h : q.1 = k
    · simp only [dinsert, if_pos h, List.mem_cons] at hp
      rcases hp with hp | hp
      · exact Or.inr hp
      · exact Or.inl (List.mem_cons_of_mem _ hp)
    · simp only [dinsert, if_neg h, List.mem_cons] at hp
      rcases hp with hp | hp
      · exact Or.inl (hp ▸ List.mem_cons_self _ _)
      · rcases ih hp with h1 | h1
        · exact Or.inl (List.mem_cons_of_mem _ h1)
        · exact Or.inr h1

theorem keys_dinsert {α β : Type} [DecidableEq α] (d : List (α × β)) (k : α) (v : β) :
    (dinsert d k v).map Prod.fst = d.map Prod.fst ∨
      (dinsert d k v).map Prod.fst = d.map Prod.fst ++ [k] := by
  induction d with
  | nil => simp [dinsert]
  | cons p rest ih =>
    by_cases h : p.1 = k
    · left; simp [dinsert, h]
    · rcases ih with h1 | h1
      · left; simp [dinsert, h, h1]
      · right; simp [dinsert, h, h1]

theorem nodup_keys_dinsert {α β : Type} [DecidableEq α] (d : List (α × β)) (k : α) (v : β)
    (h : (d.map Prod.fst).Nodup) : ((dinsert d k v).map Prod.fst).Nodup := by
  induction d with
  | nil => simp [dinsert]
  | cons p rest ih =>
    simp only [List.map_cons, List.nodup_cons] at h
    by_cases hp : p.1 = k
    · simp only [dinsert, if_pos hp, List.map_cons, List.nodup_cons]
      exact ⟨hp ▸ h.1, h.2⟩
    · simp only [dinsert, if_neg hp, List.map_cons, List.nodup_cons]
      refine ⟨?_, ih h.2⟩
      intro hmem
      rcases keys_dinsert rest k v with he | he
      · exact h.1 (he ▸ hmem)
      · rw [he, List.mem_append] at hmem
        rcases hmem with hm | hm
        · exact h.1 hm
        · simp at hm
          exact hp hm

/-- `∃ v` a key maps to, as membership in the key list. -/
theorem dlookup_isSome_iff_mem {α β : Type} [DecidableEq α] (d : List (α × β)) (k : α) :
    (dlookup d k).isSome = true ↔ k ∈ d.map Prod.fst := by
  induction d with
  | nil => simp [dlookup]
  | cons p rest ih =>
    by_cases h : p.1 = k
    · simp [dlookup, h]
    · have hk : ¬(k = p.1) := fun hh => h hh.symm
      simp [dlookup, h, ih, hk]

/-! ### `compute_grades` -/

theorem cellGrade_snd_iff (cell : Option String) :
    (cellGrade cell).2 = true ↔ cellYields cell := by
  unfold cellGrade cellCore cellYields
  by_cases h : cellVal cell = ""
  · rw [if_pos h, h]
    simp [pyInt, pyDigits]
  · rw [if_neg h]
    cases hp : pyInt (cellVal cell) with
    | none => simp [hp]
    | some v =>
      by_cases hr : 0 ≤ v ∧ v ≤ 4
      · simp [hr]
      · constructor
        · intro hf
          simp [hr] at hf
        · rintro ⟨w, hw, h1, h2⟩
          cases Option.some.inj hw
          exact absurd ⟨h1, h2⟩ hr

theorem cellGrade_fst_eq_spec (cell : Option String) :
    (cellGrade cell).1 = specCellGrade cell := by
  cases cell with
  | none => rfl
  | some s =>
    show (cellCore (pyStrip s)).1 =
      (match pyInt (pyStrip s) with
       | some v => if 0 ≤ v ∧ v ≤ 4 then v.toNat else 0
       | none => 0)
    unfold cellCore
    by_cases h : pyStrip s = ""
    · rw [if_pos h, h]
      rfl
    · rw [if_neg h]
      cases hp : pyInt (pyStrip s) with
      | none => rfl
      | some v =>
        by_cases hr : 0 ≤ v ∧ v ≤ 4 <;> simp [hr]

theorem compute_grades_eq_some {row : String → Option String} {cols : List String}
    {res : List Nat} (h : compute_grades row cols = some res) :
    res = cols.map (fun c => (cellGrade (row c)).1) := by
  unfold compute_grades at h
  by_cases ha : cols.any (fun c => (cellGrade (row c)).2) = true
  · rw [if_pos ha] at h
    exact (Option.some.inj h).symm
  · rw [if_neg ha] at h
    exact absurd h (by simp)

theorem compute_grades_eq_none_iff (row : String → Option String) (cols : List String) :
    compute_grades row cols = none ↔ ∀ c ∈ cols, ¬ cellYields (row c) := by
  have key : ∀ c, (cellGrade (row c)).2 = true ↔ cellYields (row c) :=
    fun c => cellGrade_snd_iff (row c)
  unfold compute_grades
  by_cases ha : cols.any (fun c => (cellGrade (row c)).2) = true
  · rw [if_pos ha]
    rw [List.any_eq_true] at ha
    rcases ha with ⟨c, hc, hy⟩
    constructor
    · intro hcontra; exact absurd hcontra (by simp)
    · intro hall; exact absurd ((key c).mp hy) (hall c hc)
  · rw [if_neg ha]
    rw [List.any_eq_true] at ha
    push_neg at ha
    constructor
    · intro _ c hc hy
      have hn : ¬(cellGrade (row c)).2 = true := by simpa using ha c hc
      exact hn ((key c).mpr hy)
    · intro _; rfl

theorem compute_grades_length {row : String → Option String} {cols : List String}
    {res : List Nat} (h : compute_grades row cols = some res) :
    res.length = cols.length := by
  rw [compute_grades_eq_some h, List.length_map]

/-- C1, counterexample: a row whose only cell is the string "0" yields no
value in (0,4] — its cell parses to 0 — yet `compute_grades` does not
return the sentinel: the code sets `has_any` for any parsed value in
[0,4], 0 included, so the row returns the vector [0]. -/
theorem C1_counterexample :
    compute_grades (fun _ => some "0") ["Question 1 Response"] = some [0] ∧
      pyInt (cellVal (some "0")) = some 0 :=
  ⟨by decide, by decide⟩

/-- C1 (amended): `compute_grades` returns the sentinel `none` iff no
column's cell parses (after stripping) to an integer in [0,4] — a cell
parsing to 0, such as the string "0", also counts as a yield, so a row
whose every cell is "0" returns the all-zero vector (overwriting the
entry with a value equal to the default) instead of the sentinel; a
row overwrites the grade-mapping entry exactly when some cell parses
into [0,4], not (0,4]. -/
theorem C1_sentinel_iff_no_yield (row : String → Option String) (cols : List String) :
    (compute_grades row cols = none ↔ ∀ c ∈ cols, ¬ cellYields (row c)) ∧
      (∀ res, compute_grades row cols = some res → ∃ c ∈ cols, cellYields (row c)) := by
  refine ⟨compute_grades_eq_none_iff row cols, ?_⟩
  intro res hres
  by_contra hno
  push_neg at hno
  have hn : compute_grades row cols = none :=
    (compute_grades_eq_none_iff row cols).mpr hno
  rw [hn] at hres
  exact absurd hres (by simp)

/-- C2: when `compute_grades` returns a vector, its i-th entry is the
spec's per-cell grade of the i-th response column: the parsed value v
when 0 ≤ v ≤ 4, and 0 for a blank, malformed or out-of-range cell
(silent coercion, no error raised). -/
theorem C2_cell_coercion (row : String → Option String) (cols : List String)
    (res : List Nat) (i : Nat) (h : compute_grades row cols = some res)
    (hi : i < cols.length) :
    res.getD i 0 = specCellGrade (row (cols.getD i "")) := by
  rw [compute_grades_eq_some h]
  rw [List.getD_eq_getElem?_getD, List.getD_eq_getElem?_getD, List.getElem?_map,
    List.getElem?_eq_getElem hi]
  simp [cellGrade_fst_eq_spec]

/-- C2, witness: the cell " 3 " is parsed to 3 (after stripping). -/
theorem C2_cell_coercion_witness :
    compute_grades (fun _ => some " 3 ") ["Question 1 Response"] = some [3] ∧
      0 < (["Question 1 Response"] : List String).length ∧
      ([3] : List Nat).getD 0 0 = specCellGrade (some " 3 ") :=
  ⟨by decide, by decide,
    C2_cell_coercion (fun _ => some " 3 ") ["Question 1 Response"] [3] 0
      (by decide) (by decide)⟩

/-- C7: a metadata row whose every response cell is blank or invalid
(unparseable, or parsing outside [0,4]) never overwrites the grade-dict
entry of its submission: when the row's step succeeds, it returns the
grade dict unchanged. -/
theorem C7_blank_row_no_overwrite (s2s : List (String × String))
    (fns cols cells : List String) (grades g' : List (String × List Nat))
    (hall : ∀ c ∈ cols, blankOrInvalid (rowCell fns cells c))
    (hstep : rowStep s2s fns cols grades cells = .ok g') :
    g' = grades := by
  have hnone : compute_grades (rowCell fns cells) cols = none := by
    rw [compute_grades_eq_none_iff]
    intro c hc
    rintro ⟨v, hv, h0, h4⟩
    rcases hall c hc with hb | hb | ⟨w, hw, hwr⟩
    · rw [hb, show pyInt "" = none from rfl] at hv
      exact absurd hv (by simp)
    · rw [hb] at hv
      exact absurd hv (by simp)
    · rw [hw] at hv
      cases Option.some.inj hv
      exact hwr ⟨h0, h4⟩
  have heff : rowEffect s2s fns cols cells = .error (.keyError "Student ID") ∨
      rowEffect s2s fns cols cells = .error .attrError ∨
      rowEffect s2s fns cols cells = .ok none := by
    cases hd : dlookup (rowToDict fns cells) "Student ID" with
    | none =>
      left
      simp [rowEffect, hd]
    | some sidCell =>
      cases sidCell with
      | none =>
        right; left
        simp [rowEffect, hd]
      | some sidStr =>
        cases hs : dlookup s2s (pyStrip sidStr) with
        | none =>
          right; right
          simp [rowEffect, hd, hs]
        | some sub =>
          right; right
          simp [rowEffect, hd, hs, hnone]
  unfold rowStep at hstep
  rcases heff with he | he | he <;> rw [he] at hstep
  · exact absurd hstep (by simp)
  · exact absurd hstep (by simp)
  · exact (Except.ok.inj hstep).symm

/-- C7, witness: a row whose only response cell is "5" (out of range)
leaves the dict entry as it was. -/
theorem C7_witness :
    rowStep [("s", "sub")] ["Student ID", "Question 1 Response"] ["Question 1 Response"]
        [("sub", [0])] ["s", "5"] = .ok [("sub", [0])] ∧
      ([("sub", [0])] : List (String × List Nat)) = [("sub", [0])] := by
  refine ⟨rfl, ?_⟩
  refine C7_blank_row_no_overwrite [("s", "sub")] ["Student ID", "Question 1 Response"]
    ["Question 1 Response"] ["s", "5"] [("sub", [0])] [("sub", [0])] ?_ rfl
  intro c hc
  have hce : c = "Question 1 Response" := by simpa using hc
  subst hce
  refine Or.inr (Or.inr ⟨5, by decide, by decide⟩)

/-- C9: `compute_grades` is total over rows whose cells are arbitrary
strings or missing (`None`): a row is consumed only through each cell's
stripped text, a `None` cell and a whitespace-only cell are both blank,
and a numeric cell is parsed after stripping, so " 3 " yields 3. -/
theorem C9_none_and_whitespace :
    (∀ (row row' : String → Option String) (cols : List String),
        (∀ c ∈ cols, cellVal (row c) = cellVal (row' c)) →
        compute_grades row cols = compute_grades row' cols) ∧
      cellVal none = "" ∧
      (∀ s : String, cellVal (some s) = pyStrip s) ∧
      compute_grades (fun _ => some " 3 ") ["Question 1 Response"] = some [3] ∧
      compute_grades (fun _ => none) ["Question 1 Response"] =
        compute_grades (fun _ => some "   ") ["Question 1 Response"] := by
  refine ⟨?_, rfl, fun s => rfl, by decide, by decide⟩
  intro row row' cols h
  have hcg : ∀ c ∈ cols, cellGrade (row c) = cellGrade (row' c) := by
    intro c hc
    unfold cellGrade
    rw [h c hc]
  have hany : cols.any (fun c => (cellGrade (row c)).2) =
      cols.any (fun c => (cellGrade (row' c)).2) := by
    rw [Bool.eq_iff_iff, List.any_eq_true, List.any_eq_true]
    constructor
    · rintro ⟨c, hc, hy⟩
      refine ⟨c, hc, ?_⟩
      rw [← hcg c hc]
      exact hy
    · rintro ⟨c, hc, hy⟩
      refine ⟨c, hc, ?_⟩
      rw [hcg c hc]
      exact hy
  have hmap : cols.map (fun c => (cellGrade (row c)).1) =
      cols.map (fun c => (cellGrade (row' c)).1) :=
    List.map_congr_left (fun c hc => by rw [hcg c hc])
  unfold compute_grades
  rw [hany, hmap]

/-! ### The metadata-row loop -/

theorem rowEffect_ok_some {s2s : List (String × String)} {fns cols cells : List String}
    {sub : String} {g : List Nat}
    (h : rowEffect s2s fns cols cells = .ok (some (sub, g))) :
    compute_grades (rowCell fns cells) cols = some g := by
  cases hd : dlookup (rowToDict fns cells) "Student ID" with
  | none => simp [rowEffect, hd] at h
  | some sidCell =>
    cases sidCell with
    | none => simp [rowEffect, hd] at h
    | some sidStr =>
      cases hs : dlookup s2s (pyStrip sidStr) with
      | none => simp [rowEffect, hd, hs] at h
      | some sub' =>
        cases hcg : compute_grades (rowCell fns cells) cols with
        | none => simp [rowEffect, hd, hs, hcg] at h
        | some g' =>
          simp only [rowEffect, hd, hs, hcg, Except.ok.injEq, Option.some.injEq,
            Prod.mk.injEq] at h
          rw [h.2]

theorem processRows_append (s2s : List (String × String)) (fns cols : List String)
    (l1 l2 : List (List String)) (g0 : List (String × List Nat)) :
    processRows s2s fns cols (l1 ++ l2) g0 =
      match processRows s2s fns cols l1 g0 with
      | .error e => .error e
      | .ok g1 => processRows s2s fns cols l2 g1 := by
  induction l1 generalizing g0 with
  | nil => simp [processRows]
  | cons c rest ih =>
    cases hA : rowStep s2s fns cols g0 c with
    | error e => simp [processRows, hA]
    | ok g1 => simpa [processRows, hA] using ih g1

theorem processRows_append_ok {s2s : List (String × String)} {fns cols : List String}
    {l1 l2 : List (List String)} {g0 gfin : List (String × List Nat)}
    (h : processRows s2s fns cols (l1 ++ l2) g0 = .ok gfin) :
    ∃ gmid, processRows s2s fns cols l1 g0 = .ok gmid ∧
      processRows s2s fns cols l2 gmid = .ok gfin := by
  rw [processRows_append] at h
  cases hA : processRows s2s fns cols l1 g0 with
  | error e =>
    rw [hA] at h
    exact absurd h (by simp)
  | ok gmid =>
    rw [hA] at h
    exact ⟨gmid, rfl, h⟩

theorem processRows_cons_ok {s2s : List (String × String)} {fns cols : List String}
    {r : List String} {rest : List (List String)} {g0 gfin : List (String × List Nat)}
    (h : processRows s2s fns cols (r :: rest) g0 = .ok gfin) :
    ∃ g1, rowStep s2s fns cols g0 r = .ok g1 ∧
      processRows s2s fns cols rest g1 = .ok gfin := by
  have h' : (match rowStep s2s fns cols g0 r with
      | .error e => (.error e : Except PyErr (List (String × List Nat)))
      | .ok g1 => processRows s2s fns cols rest g1) = .ok gfin := h
  cases hA : rowStep s2s fns cols g0 r with
  | error e =>
    rw [hA] at h'
    exact absurd h' (by simp)
  | ok g1 =>
    rw [hA] at h'
    exact ⟨g1, rfl, h'⟩

theorem rowStep_cases (s2s : List (String × String)) (fns cols : List String)
    (g0 : List (String × List Nat)) (r : List String) :
    (∃ e, rowStep s2s fns cols g0 r = .error e) ∨
      rowStep s2s fns cols g0 r = .ok g0 ∨
      ∃ sub g, rowEffect s2s fns cols r = .ok (some (sub, g)) ∧
        rowStep s2s fns cols g0 r = .ok (dinsert g0 sub g) := by
  cases heff : rowEffect s2s fns cols r with
  | error e =>
    exact Or.inl ⟨e, by simp [rowStep, heff]⟩
  | ok o =>
    cases o with
    | none => exact Or.inr (Or.inl (by simp [rowStep, heff]))
    | some p =>
      obtain ⟨sub, g⟩ := p
      exact Or.inr (Or.inr ⟨sub, g, rfl, by simp [rowStep, heff]⟩)

theorem processRows_preserve (s2s : List (String × String)) (fns cols : List String)
    (l : List (List String)) (g0 gfin : List (String × List Nat)) (sub : String)
    (hl : ∀ r ∈ l, ∀ p : String × List Nat,
        rowEffect s2s fns cols r = .ok (some p) → p.1 ≠ sub)
    (h : processRows s2s fns cols l g0 = .ok gfin) :
    dlookup gfin sub = dlookup g0 sub := by
  induction l generalizing g0 with
  | nil =>
    simp only [processRows] at h
    injection h with h1
    rw [← h1]
  | cons r rest ih =>
    obtain ⟨g1, hstep, hrest⟩ := processRows_cons_ok h
    have htail : ∀ r' ∈ rest, ∀ p : String × List Nat,
        rowEffect s2s fns cols r' = .ok (some p) → p.1 ≠ sub :=
      fun r' hr' => hl r' (List.mem_cons_of_mem r hr')
    have hmain := ih g1 htail hrest
    rcases rowStep_cases s2s fns cols g0 r with ⟨e, he⟩ | he | ⟨sub', g', heff, he⟩
    · rw [he] at hstep
      exact absurd hstep (by simp)
    · rw [he] at hstep
      injection hstep with h1
      rw [hmain, ← h1]
    · rw [he] at hstep
      injection hstep with h1
      rw [hmain, ← h1]
      exact dlookup_dinsert_ne g0 sub' sub g'
        (Ne.symm (hl r (List.mem_cons_self r rest) (sub', g') heff))

theorem processRows_length (s2s : List (String × String)) (fns cols : List String)
    (l : List (List String)) (g0 gfin : List (String × List Nat))
    (h0 : ∀ p ∈ g0, p.2.length = cols.length)
    (h : processRows s2s fns cols l g0 = .ok gfin) :
    ∀ p ∈ gfin, p.2.length = cols.length := by
  induction l generalizing g0 with
  | nil =>
    simp only [processRows] at h
    injection h with h1
    rw [← h1]
    exact h0
  | cons r rest ih =>
    obtain ⟨g1, hstep, hrest⟩ := processRows_cons_ok h
    rcases rowStep_cases s2s fns cols g0 r with ⟨e, he⟩ | he | ⟨sub', g', heff, he⟩
    · rw [he] at hstep
      exact absurd hstep (by simp)
    · rw [he] at hstep
      injection hstep with h1
      exact ih g1 (h1 ▸ h0) hrest
    · rw [he] at hstep
      injection hstep with h1
      refine ih g1 ?_ hrest
      rw [← h1]
      intro q hq
      rcases mem_dinsert g0 sub' g' q hq with hq1 | hq1
      · exact h0 q hq1
      · rw [hq1]
        exact compute_grades_length (rowEffect_ok_some heff)

theorem processRows_nodup (s2s : List (String × String)) (fns cols : List String)
    (l : List (List String)) (g0 gfin : List (String × List Nat))
    (h0 : (g0.map Prod.fst).Nodup)
    (h : processRows s2s fns cols l g0 = .ok gfin) :
    (gfin.map Prod.fst).Nodup := by
  induction l generalizing g0 with
  | nil =>
    simp only [processRows] at h
    injection h with h1
    rw [← h1]
    exact h0
  | cons r rest ih =>
    obtain ⟨g1, hstep, hrest⟩ := processRows_cons_ok h
    rcases rowStep_cases s2s fns cols g0 r with ⟨e, he⟩ | he | ⟨sub', g', heff, he⟩
    · rw [he] at hstep
      exact absurd hstep (by simp)
    · rw [he] at hstep
      injection hstep with h1
      exact ih g1 (h1 ▸ h0) hrest
    · rw [he] at hstep
      injection hstep with h1
      exact ih g1 (h1 ▸ nodup_keys_dinsert g0 sub' g' h0) hrest

theorem initGrades_fold_length (cols : List String) (subs : List String)
    (acc : List (String × List Nat)) (hacc : ∀ p ∈ acc, p.2.length = cols.length) :
    ∀ p ∈ subs.foldl (fun g sub => dinsert g sub (List.replicate cols.length 0)) acc,
      p.2.length = cols.length := by
  induction subs generalizing acc with
  | nil => exact hacc
  | cons s rest ih =>
    refine ih _ ?_
    intro p hp
    rcases mem_dinsert acc s (List.replicate cols.length 0) p hp with h1 | h1
    · exact hacc p h1
    · rw [h1]
      exact List.length_replicate cols.length 0

theorem initGrades_length (s2s : List (String × String)) (cols : List String) :
    ∀ p ∈ initGrades s2s cols, p.2.length = cols.length :=
  initGrades_fold_length cols (s2s.map Prod.snd) [] (by simp)

theorem initGrades_fold_nodup (cols : List String) (subs : List String)
    (acc : List (String × List Nat)) (hacc : (acc.map Prod.fst).Nodup) :
    ((subs.foldl (fun g sub => dinsert g sub (List.replicate cols.length 0)) acc).map
      Prod.fst).Nodup := by
  induction subs generalizing acc with
  | nil => exact hacc
  | cons s rest ih =>
    exact ih _ (nodup_keys_dinsert acc s (List.replicate cols.length 0) hacc)

theorem initGrades_nodup (s2s : List (String × String)) (cols : List String) :
    ((initGrades s2s cols).map Prod.fst).Nodup :=
  initGrades_fold_nodup cols (s2s.map Prod.snd) [] (by simp)

/-- C4: every grade vector in a question's mapping has exactly one entry
per response column: the initial all-zero defaults, every vector
`compute_grades` produces, and every entry after all metadata rows are
processed. -/
theorem C4_vector_length (s2s : List (String × String)) (fns cols : List String) :
    (∀ p ∈ initGrades s2s cols, p.2.length = cols.length) ∧
      (∀ (row : String → Option String) (res : List Nat),
        compute_grades row cols = some res → res.length = cols.length) ∧
      (∀ (rows : List (List String)) (g : List (String × List Nat)),
        questionGrades s2s fns rows cols = .ok g →
        ∀ p ∈ g, p.2.length = cols.length) := by
  refine ⟨initGrades_length s2s cols, fun row res h => compute_grades_length h, ?_⟩
  intro rows g h
  exact processRows_length s2s fns cols rows _ g (initGrades_length s2s cols) h

/-- C5: duplicate student IDs across metadata rows — when rows `r1` and
`r2` carry the same stripped student id mapping to submission `sub`,
`r2` comes later and computes the vector `g2`, and no row after `r2`
writes to `sub`, the final mapping holds `g2`: the last row processed
wins for that submission's vector. -/
theorem C5_last_row_wins (s2s : List (String × String)) (fns cols : List String)
    (l1 l2 l3 : List (List String)) (r1 r2 : List String)
    (g0 gfin : List (String × List Nat)) (sid1 sid2 sub : String) (g2 : List Nat)
    (h1 : dlookup (rowToDict fns r1) "Student ID" = some (some sid1))
    (h2 : dlookup (rowToDict fns r2) "Student ID" = some (some sid2))
    (hsame : pyStrip sid1 = pyStrip sid2)
    (hmap : dlookup s2s (pyStrip sid2) = some sub)
    (hg2 : compute_grades (rowCell fns r2) cols = some g2)
    (hlast : ∀ r ∈ l3, ∀ p : String × List Nat,
        rowEffect s2s fns cols r = .ok (some p) → p.1 ≠ sub)
    (hrun : processRows s2s fns cols (l1 ++ r1 :: l2 ++ r2 :: l3) g0 = .ok gfin) :
    dlookup gfin sub = some g2 := by
  obtain ⟨gC, _, hrun4⟩ := processRows_append_ok hrun
  obtain ⟨gD, hD, hrun5⟩ := processRows_cons_ok hrun4
  have heff2 : rowEffect s2s fns cols r2 = .ok (some (sub, g2)) := by
    simp [rowEffect, h2, hmap, hg2]
  have hDval : rowStep s2s fns cols gC r2 = .ok (dinsert gC sub g2) := by
    simp [rowStep, heff2]
  rw [hDval] at hD
  injection hD with hDe
  rw [processRows_preserve s2s fns cols l3 gD gfin sub hlast hrun5, ← hDe]
  exact dlookup_dinsert_self gC sub g2

/-- C5, witness: two rows with student id "s"; the second ("4") wins. -/
theorem C5_last_row_wins_witness :
    processRows [("s", "sub")] ["Student ID", "Question 1 Response"]
        ["Question 1 Response"] [["s", "3"], ["s", "4"]] [("sub", [0])]
      = .ok [("sub", [4])] ∧
      dlookup [("sub", [4])] "sub" = some ([4] : List Nat) := by
  refine ⟨rfl, ?_⟩
  exact C5_last_row_wins [("s", "sub")] ["Student ID", "Question 1 Response"]
    ["Question 1 Response"] [] [] [] ["s", "3"] ["s", "4"] [("sub", [0])]
    [("sub", [4])] "s" "s" "sub" [4] rfl rfl rfl rfl (by decide)
    (fun r hr => absurd hr (List.not_mem_nil r)) rfl

/-! ### The scores loop -/

theorem buildS2SAux_append (fns : List String) (l1 l2 : List (List String))
    (acc : List (String × String)) :
    buildS2SAux fns (l1 ++ l2) acc =
      match buildS2SAux fns l1 acc with
      | .error e => .error e
      | .ok mid => buildS2SAux fns l2 mid := by
  induction l1 generalizing acc with
  | nil => simp [buildS2SAux]
  | cons c rest ih =>
    cases hA : scoreStep acc fns c with
    | error e => simp [buildS2SAux, hA]
    | ok mid => simpa [buildS2SAux, hA] using ih mid

theorem buildS2SAux_append_ok {fns : List String} {l1 l2 : List (List String)}
    {acc out : List (String × String)}
    (h : buildS2SAux fns (l1 ++ l2) acc = .ok out) :
    ∃ mid, buildS2SAux fns l1 acc = .ok mid ∧ buildS2SAux fns l2 mid = .ok out := by
  rw [buildS2SAux_append] at h
  cases hA : buildS2SAux fns l1 acc with
  | error e =>
    rw [hA] at h
    exact absurd h (by simp)
  | ok mid =>
    rw [hA] at h
    exact ⟨mid, rfl, h⟩

theorem buildS2SAux_cons_ok {fns : List String} {r : List String}
    {rest : List (List String)} {acc out : List (String × String)}
    (h : buildS2SAux fns (r :: rest) acc = .ok out) :
    ∃ mid, scoreStep acc fns r = .ok mid ∧ buildS2SAux fns rest mid = .ok out := by
  have h' : (match scoreStep acc fns r with
      | .error e => (.error e : Except PyErr (List (String × String)))
      | .ok mid => buildS2SAux fns rest mid) = .ok out := h
  cases hA : scoreStep acc fns r with
  | error e =>
    rw [hA] at h'
    exact absurd h' (by simp)
  | ok mid =>
    rw [hA] at h'
    exact ⟨mid, rfl, h'⟩

theorem scoreStep_cases (acc : List (String × String)) (fns : List String)
    (r : List String) :
    (∃ e, scoreStep acc fns r = .error e) ∨
      scoreStep acc fns r = .ok acc ∨
      ∃ s b, scoreEffect fns r = .ok (some (s, b)) ∧
        scoreStep acc fns r = .ok (dinsert acc s b) := by
  cases heff : scoreEffect fns r with
  | error e =>
    exact Or.inl ⟨e, by simp [scoreStep, heff]⟩
  | ok o =>
    cases o with
    | none => exact Or.inr (Or.inl (by simp [scoreStep, heff]))
    | some p =>
      obtain ⟨s, b⟩ := p
      exact Or.inr (Or.inr ⟨s, b, rfl, by simp [scoreStep, heff]⟩)

theorem buildS2SAux_preserve (fns : List String) (l : List (List String))
    (acc out : List (String × String)) (s : String)
    (hl : ∀ r ∈ l, ∀ p : String × String,
        scoreEffect fns r = .ok (some p) → p.1 ≠ s)
    (h : buildS2SAux fns l acc = .ok out) :
    dlookup out s = dlookup acc s := by
  induction l generalizing acc with
  | nil =>
    simp only [buildS2SAux] at h
    injection h with h1
    rw [← h1]
  | cons r rest ih =>
    obtain ⟨mid, hstep, hrest⟩ := buildS2SAux_cons_ok h
    have htail : ∀ r' ∈ rest, ∀ p : String × String,
        scoreEffect fns r' = .ok (some p) → p.1 ≠ s :=
      fun r' hr' => hl r' (List.mem_cons_of_mem r hr')
    have hmain := ih mid htail hrest
    rcases scoreStep_cases acc fns r with ⟨e, he⟩ | he | ⟨s', b', heff, he⟩
    · rw [he] at hstep
      exact absurd hstep (by simp)
    · rw [he] at hstep
      injection hstep with h1
      rw [hmain, ← h1]
    · rw [he] at hstep
      injection hstep with h1
      rw [hmain, ← h1]
      exact dlookup_dinsert_ne acc s' s b'
        (Ne.symm (hl r (List.mem_cons_self r rest) (s', b') heff))

/-- C10: two distinct student ids mapping to one submission share one
grade-mapping entry. (1) a duplicated SID in the scores file keeps only
the last submission id seen: the last scores row contributing a pair for
SID s determines its submission id, whatever rows follow, as long as
none of them contributes a pair for s again; (2) the grade mapping holds
at most one entry per submission id; (3) the last metadata row that
writes to a submission — under either student id — determines its final
vector, whatever rows follow, as long as none of them writes to that
submission. -/
theorem C10_shared_submission :
    (∀ (fns : List String) (l1 l2 : List (List String)) (cells : List String)
        (acc s2s : List (String × String)) (s b : String),
        buildS2SAux fns (l1 ++ cells :: l2) acc = .ok s2s →
        scoreEffect fns cells = .ok (some (s, b)) →
        (∀ r ∈ l2, ∀ p : String × String,
          scoreEffect fns r = .ok (some p) → p.1 ≠ s) →
        dlookup s2s s = some b) ∧
      (∀ (s2s : List (String × String)) (fns : List String)
          (rows : List (List String)) (cols : List String)
          (g : List (String × List Nat)),
        questionGrades s2s fns rows cols = .ok g →
        (g.map Prod.fst).Nodup) ∧
      (∀ (s2s : List (String × String)) (fns cols : List String)
          (l1 l2 : List (List String)) (cells : List String)
          (g0 gfin : List (String × List Nat)) (sub : String) (g : List Nat),
        processRows s2s fns cols (l1 ++ cells :: l2) g0 = .ok gfin →
        rowEffect s2s fns cols cells = .ok (some (sub, g)) →
        (∀ r ∈ l2, ∀ p : String × List Nat,
          rowEffect s2s fns cols r = .ok (some p) → p.1 ≠ sub) →
        dlookup gfin sub = some g) := by
  refine ⟨?_, ?_, ?_⟩
  · intro fns l1 l2 cells acc s2s s b hrun heff hlater
    obtain ⟨mid, _, hrun2⟩ := buildS2SAux_append_ok hrun
    obtain ⟨mid2, hstep, hrun3⟩ := buildS2SAux_cons_ok hrun2
    have hsv : scoreStep mid fns cells = .ok (dinsert mid s b) := by
      simp [scoreStep, heff]
    rw [hsv] at hstep
    injection hstep with h1
    rw [buildS2SAux_preserve fns l2 mid2 s2s s hlater hrun3, ← h1]
    exact dlookup_dinsert_self mid s b
  · intro s2s fns rows cols g h
    exact processRows_nodup s2s fns cols rows _ g (initGrades_nodup s2s cols) h
  · intro s2s fns cols l1 l2 cells g0 gfin sub g hrun heff hlater
    obtain ⟨gmid, _, hrun2⟩ := processRows_append_ok hrun
    obtain ⟨g1, hstep, hrun3⟩ := processRows_cons_ok hrun2
    have hsv : rowStep s2s fns cols gmid cells = .ok (dinsert gmid sub g) := by
      simp [rowStep, heff]
    rw [hsv] at hstep
    injection hstep with h1
    rw [processRows_preserve s2s fns cols l2 g1 gfin sub hlater hrun3, ← h1]
    exact dlookup_dinsert_self gmid sub g

/-- C10, witness: students "a" and "b" share submission "sub"; the row
of "b" writes [2] last for "sub" but is followed by another student's
row, which writes a different submission; [2] is still the final value
for "sub", and the mapping keeps a single entry per submission. -/
theorem C10_shared_submission_witness :
    processRows [("a", "sub"), ("b", "sub"), ("c", "other")]
        ["Student ID", "Question 1 Response"] ["Question 1 Response"]
        [["a", "3"], ["b", "2"], ["c", "1"]]
        (initGrades [("a", "sub"), ("b", "sub"), ("c", "other")]
          ["Question 1 Response"])
      = .ok [("sub", [2]), ("other", [1])] ∧
      dlookup [("sub", [2]), ("other", [1])] "sub" = some ([2] : List Nat) := by
  refine ⟨rfl, ?_⟩
  refine C10_shared_submission.2.2 [("a", "sub"), ("b", "sub"), ("c", "other")]
    ["Student ID", "Question 1 Response"] ["Question 1 Response"]
    [["a", "3"]] [["c", "1"]] ["b", "2"]
    (initGrades [("a", "sub"), ("b", "sub"), ("c", "other")] ["Question 1 Response"])
    [("sub", [2]), ("other", [1])] "sub" [2] rfl rfl ?_
  intro r hr p hp
  have hre : r = ["c", "1"] := by simpa using hr
  subst hre
  rw [show rowEffect [("a", "sub"), ("b", "sub"), ("c", "other")]
      ["Student ID", "Question 1 Response"] ["Question 1 Response"] ["c", "1"]
      = .ok (some ("other", [1])) from rfl] at hp
  injection hp with hp1
  injection hp1 with hp2
  rw [← hp2]
  decide

/-! ### `parse_questions` grouping -/

theorem dlookup_qappend_self (qs : List (Nat × List String)) (k : Nat) (h : String) :
    dlookup (qappend qs k h) k = some ((dlookup qs k).getD [] ++ [h]) := by
  induction qs with
  | nil => simp [qappend, dlookup]
  | cons p rest ih =>
    by_cases hp : p.1 = k
    · simp [qappend, hp, dlookup]
    · simp [qappend, hp, dlookup, ih]

theorem dlookup_qappend_ne (qs : List (Nat × List String)) (k k' : Nat) (h : String)
    (hne : k' ≠ k) : dlookup (qappend qs k h) k' = dlookup qs k' := by
  have hk : ¬(k = k') := fun hh => hne hh.symm
  induction qs with
  | nil => simp [qappend, dlookup, hk]
  | cons p rest ih =>
    by_cases hp : p.1 = k
    · have hpk : ¬(p.1 = k') := by rw [hp]; exact hk
      simp [qappend, hp, dlookup, hpk, hk]
    · by_cases hp' : p.1 = k'
      · simp only [qappend, if_neg hp, dlookup, if_pos hp']
      · simp only [qappend, if_neg hp, dlookup, if_neg hp', ih]

theorem parse_questions_fold (n : Nat) (hs : List String)
    (acc : List (Nat × List String)) :
    dlookup (hs.foldl (fun qs h =>
        match matchQuestionHeader h with
        | some m => qappend qs m h
        | none => qs) acc) n =
      match dlookup acc n with
      | some l => some (l ++ hs.filter (fun h => decide (matchQuestionHeader h = some n)))
      | none =>
        if (hs.filter (fun h => decide (matchQuestionHeader h = some n))).isEmpty
        then none
        else some (hs.filter (fun h => decide (matchQuestionHeader h = some n))) := by
  induction hs generalizing acc with
  | nil =>
    cases hacc : dlookup acc n <;> simp [hacc]
  | cons h hs ih =>
    cases hm : matchQuestionHeader h with
    | none =>
      simp only [List.foldl_cons, hm]
      rw [ih acc]
      have hf : decide (matchQuestionHeader h = some n) = false := by simp [hm]
      simp [List.filter_cons, hf]
    | some m =>
      simp only [List.foldl_cons, hm]
      by_cases hmn : m = n
      · subst hmn
        rw [ih (qappend acc m h)]
        rw [dlookup_qappend_self]
        have hf : decide (matchQuestionHeader h = some m) = true := by simp [hm]
        cases hacc : dlookup acc m <;> simp [hacc, List.filter_cons, hf]
      · rw [ih (qappend acc m h)]
        rw [dlookup_qappend_ne acc m n h (fun hh => hmn hh.symm)]
        have hf : decide (matchQuestionHeader h = some n) = false := by
          simp [hm, hmn]
        cases hacc : dlookup acc n <;> simp [hacc, List.filter_cons, hf]

/-- C6: `parse_questions` associates each question number n with exactly
the headers matching `Question <int>[.<int>] Response` whose leading
integer is n, in their order of appearance in the header list; headers
that do not match appear in no group, and a number with no matching
header gets no entry. -/
theorem C6_parse_questions (headers : List String) (n : Nat) :
    dlookup (parse_questions headers) n =
      if (headers.filter (fun h => decide (matchQuestionHeader h = some n))).isEmpty
      then none
      else some (headers.filter (fun h => decide (matchQuestionHeader h = some n))) := by
  unfold parse_questions
  rw [parse_questions_fold n headers []]
  rfl

/-! ### Question emission -/

theorem mem_insertSorted (a n : Nat) (l : List Nat) :
    a ∈ insertSorted n l ↔ a = n ∨ a ∈ l := by
  induction l with
  | nil => simp [insertSorted]
  | cons m rest ih =>
    by_cases h : n ≤ m
    · simp [insertSorted, h]
    · simp only [insertSorted, if_neg h, List.mem_cons, ih]
      tauto

theorem mem_sortKeys (a : Nat) (l : List Nat) : a ∈ sortKeys l ↔ a ∈ l := by
  induction l with
  | nil => simp [sortKeys]
  | cons n rest ih => simp [sortKeys, mem_insertSorted, ih]

theorem emitAll_mem (s2s : List (String × String)) (fns : List String)
    (rows : List (List String)) (questions : List (Nat × List String))
    (ks : List Nat) (outs : List (Nat × List (String × List Nat)))
    (hok : emitAll s2s fns rows questions ks = .ok outs)
    (q : Nat) (g : List (String × List Nat)) :
    (q, g) ∈ outs ↔ q ∈ ks ∧ ∃ cols, dlookup questions q = some cols ∧
      questionGrades s2s fns rows cols = .ok g ∧ hasNonzero g = true := by
  induction ks generalizing outs with
  | nil =>
    simp only [emitAll] at hok
    injection hok with h1
    rw [← h1]
    simp
  | cons k ks ih =>
    cases hd : dlookup questions k with
    | none =>
      have hok2 : emitAll s2s fns rows questions ks = .ok outs := by
        simpa [emitAll, hd] using hok
      rw [ih outs hok2]
      constructor
      · rintro ⟨hq, hrest⟩
        exact ⟨List.mem_cons_of_mem k hq, hrest⟩
      · rintro ⟨hq, cols, hcols, hrest⟩
        rcases List.mem_cons.mp hq with rfl | hq'
        · rw [hd] at hcols
          exact absurd hcols (by simp)
        · exact ⟨hq', cols, hcols, hrest⟩
    | some cols =>
      cases hqg : questionGrades s2s fns rows cols with
      | error e =>
        exfalso
        simp [emitAll, hd, hqg] at hok
      | ok gk =>
        cases hrest : emitAll s2s fns rows questions ks with
        | error e =>
          exfalso
          simp [emitAll, hd, hqg, hrest] at hok
        | ok rest =>
          have houts : outs = (if hasNonzero gk then [(k, gk)] else []) ++ rest := by
            have h0 := hok
            simp only [emitAll, hd, hqg, hrest] at h0
            exact (Except.ok.inj h0).symm
          subst houts
          rw [List.mem_append, ih rest hrest]
          constructor
          · rintro (hin | ⟨hq, hrest'⟩)
            · by_cases hnz : hasNonzero gk = true
              · rw [if_pos hnz] at hin
                simp only [List.mem_singleton, Prod.mk.injEq] at hin
                obtain ⟨rfl, rfl⟩ := hin
                exact ⟨List.mem_cons_self q ks, cols, hd, hqg, hnz⟩
              · rw [if_neg hnz] at hin
                exact absurd hin (List.not_mem_nil _)
            · exact ⟨List.mem_cons_of_mem k hq, hrest'⟩
          · rintro ⟨hq, cols', hcols', hgr, hnz⟩
            rcases List.mem_cons.mp hq with rfl | hq'
            · rw [hd] at hcols'
              cases Option.some.inj hcols'
              rw [hqg] at hgr
              cases Except.ok.inj hgr
              left
              rw [if_pos hnz]
              exact List.mem_singleton.mpr rfl
            · right
              exact ⟨hq', cols', hcols', hgr, hnz⟩

/-- C3: among the questions discovered from the metadata headers, an
output file is written for question q iff some submission's grade vector
for q has a nonzero entry; a question whose every vector is all-zero
produces no output file. -/
theorem C3_emit_iff_nonzero (scores metadata : CSV)
    (outs : List (Nat × List (String × List Nat)))
    (s2s : List (String × String)) (q : Nat) (cols : List String)
    (hok : mainOutputs scores metadata = .ok outs)
    (hs : buildSidToSubmission scores = .ok s2s)
    (hq : dlookup (parse_questions metadata.fieldnames) q = some cols) :
    (∃ g, (q, g) ∈ outs) ↔
      (∃ g, questionGrades s2s metadata.fieldnames metadata.rows cols = .ok g ∧
        hasNonzero g = true) := by
  have hemit : emitAll s2s metadata.fieldnames metadata.rows
      (parse_questions metadata.fieldnames)
      (sortKeys ((parse_questions metadata.fieldnames).map Prod.fst)) = .ok outs := by
    have h0 := hok
    simp only [mainOutputs, hs] at h0
    exact h0
  have hmem : q ∈ sortKeys ((parse_questions metadata.fieldnames).map Prod.fst) := by
    rw [mem_sortKeys, ← dlookup_isSome_iff_mem, hq]
    rfl
  constructor
  · rintro ⟨g, hg⟩
    rw [emitAll_mem _ _ _ _ _ _ hemit q g] at hg
    obtain ⟨_, cols', hcols', hgr, hnz⟩ := hg
    rw [hq] at hcols'
    cases Option.some.inj hcols'
    exact ⟨g, hgr, hnz⟩
  · rintro ⟨g, hgr, hnz⟩
    refine ⟨g, ?_⟩
    rw [emitAll_mem _ _ _ _ _ _ hemit q g]
    exact ⟨hmem, cols, hq, hgr, hnz⟩

/-- C3, witness: one student, one question column, grade 3: the question
is emitted, and the characterization holds concretely. -/
theorem C3_emit_iff_nonzero_witness :
    mainOutputs ⟨["SID", "Submission ID"], [["s1", "sub1"]]⟩
        ⟨["Student ID", "Question 1 Response"], [["s1", "3"]]⟩
      = .ok [(1, [("sub1", [3])])] ∧
      ((∃ g, (1, g) ∈ [(1, [("sub1", [3])])]) ↔
        (∃ g, questionGrades [("s1", "sub1")] ["Student ID", "Question 1 Response"]
            [["s1", "3"]] ["Question 1 Response"] = .ok g ∧ hasNonzero g = true)) := by
  refine ⟨rfl, ?_⟩
  exact C3_emit_iff_nonzero ⟨["SID", "Submission ID"], [["s1", "sub1"]]⟩
    ⟨["Student ID", "Question 1 Response"], [["s1", "3"]]⟩
    [(1, [("sub1", [3])])] [("s1", "sub1")] 1 ["Question 1 Response"] rfl rfl rfl

/-! ### Exit behaviour -/

/-- C8, counterexample: with the correct argument count but a metadata
file that has a question column and a data row yet no "Student ID"
column, the run aborts on an uncaught KeyError: exit status 1 with no
usage message, although the argument count was right — so "wrong
argument count is the only fatal error; in every other case exit 0" is
false. -/
theorem C8_counterexample :
    runProg ["generate.py", "scores.csv", "meta.csv"]
      ⟨["SID", "Submission ID"], []⟩ ⟨["Question 1 Response"], [["3"]]⟩
      = ⟨1, false⟩ := rfl

/-- C8 (amended): the usage message is printed, with a nonzero exit,
exactly when the argument count is wrong; with two file arguments the
program exits 0 whenever the extractor raises no exception, and an
uncaught exception (for instance a missing required column) aborts it
with a nonzero exit and no usage message. -/
theorem C8_exit_codes (argv : List String) (scores metadata : CSV) :
    (((runProg argv scores metadata).exitCode ≠ 0 ∧
        (runProg argv scores metadata).usagePrinted = true) ↔ argv.length ≠ 3) ∧
      (∀ outs, argv.length = 3 → mainOutputs scores metadata = .ok outs →
        runProg argv scores metadata = ⟨0, false⟩) ∧
      (∀ e, argv.length = 3 → mainOutputs scores metadata = .error e →
        runProg argv scores metadata = ⟨1, false⟩) := by
  unfold runProg
  by_cases h : argv.length ≠ 3
  · rw [if_pos h]
    refine ⟨?_, ?_, ?_⟩
    · simp [h]
    · intro outs h3
      exact absurd h3 h
    · intro e h3
      exact absurd h3 h
  · rw [if_neg h]
    refine ⟨?_, ?_, ?_⟩
    · cases hm : mainOutputs scores metadata <;> simp [h]
    · intro outs _ hm
      rw [hm]
    · intro e _ hm
      rw [hm]

end GradesImporter
